import Mathlib

/-!
Verification development for the clauder usage accounting and
limit-prediction engine.

Shallow embedding conventions:
* JavaScript timestamps (millisecond epoch values, `Date.getTime()`)
  are modelled as `Int`.
* JavaScript floating point arithmetic on percentages, costs and rates
  is modelled as exact rational arithmetic (`ℚ`).
* Token counts parsed from the usage logs are modelled as `Nat`.
* Optional / nullable fields are `Option`.
* Entries carry the cached parsed timestamp `_tsMs` (field `tsMs` here);
  the `Event Log Reader` computes it once from the timestamp string.
-/

namespace Clauder

/-- Token usage of a single log entry (`TokenUsageData` in `types`):
`input_tokens`, `output_tokens` and the optional cache counters. -/
structure TokenUsageData where
  input_tokens : Nat
  output_tokens : Nat
  cache_creation_input_tokens : Option Nat := none
  cache_read_input_tokens : Option Nat := none
deriving DecidableEq, Repr

/-- The `message` object of a log entry: optional model identifier and
optional usage block. -/
structure EntryMessage where
  model : Option String := none
  usage : Option TokenUsageData := none
deriving DecidableEq, Repr

/-- `SessionEntryWithCwd & { _tsMs : number }`: a parsed log entry with
its cached millisecond timestamp `_tsMs`, optional message and optional
working directory `cwd`. -/
structure SessionEntryWithCwd where
  tsMs : Int
  message : Option EntryMessage := none
  cwd : Option String := none
deriving DecidableEq, Repr

/-- Subscription tiers (`PlanType`). -/
inductive PlanType
  | pro
  | max5
  | max20
deriving DecidableEq, Repr

/-- Per-tier limits (`PlanLimits`). -/
structure PlanLimits where
  windowTokens : Nat
  weeklyHours : Nat
deriving DecidableEq, Repr

/-- `PLAN_LIMITS` table from `types`. -/
def PLAN_LIMITS : PlanType → PlanLimits
  | .pro => { windowTokens := 500000, weeklyHours := 60 }
  | .max5 => { windowTokens := 2500000, weeklyHours := 210 }
  | .max20 => { windowTokens := 10000000, weeklyHours := 360 }

/-- `WINDOW_DURATION_MS = 5 * 60 * 60 * 1000`. -/
def WINDOW_DURATION_MS : Int := 5 * 60 * 60 * 1000

/-- `TOKENS_PER_HOUR_ESTIMATE = 50000`. -/
def TOKENS_PER_HOUR_ESTIMATE : Nat := 50000

/-- `getEntryTokens` from `usage/utils.ts`: input plus output tokens of
the entry's usage block, `0` when the usage block is absent.  The cache
counters are not consulted. -/
def getEntryTokens (entry : SessionEntryWithCwd) : Nat :=
  match entry.message with
  | none => 0
  | some m =>
    match m.usage with
    | none => 0
    | some usage => usage.input_tokens + usage.output_tokens

/-- `entry.message?.usage?.input_tokens || 0`. -/
def entryInputTokens (entry : SessionEntryWithCwd) : Nat :=
  match entry.message with
  | none => 0
  | some m =>
    match m.usage with
    | none => 0
    | some usage => usage.input_tokens

/-- `entry.message?.usage?.output_tokens || 0`. -/
def entryOutputTokens (entry : SessionEntryWithCwd) : Nat :=
  match entry.message with
  | none => 0
  | some m =>
    match m.usage with
    | none => 0
    | some usage => usage.output_tokens

/-- `UsageTracker.getWindowStart`: per the source's own comment,
"Single-pass: find minimum timestamp >= windowAgoMs" — the minimum
`_tsMs` among entries with `_tsMs >= windowAgoMs` (`minTs = Infinity`,
i.e. `none`, when no entry qualifies), falling back to `windowAgo`.
Note the loop imposes no upper bound on the timestamps it considers. -/
def getWindowStart (entries : List SessionEntryWithCwd) (nowMs : Int) : Int :=
  let windowAgoMs := nowMs - WINDOW_DURATION_MS
  let minTs := ((entries.map (fun e => e.tsMs)).filter (fun t => decide (windowAgoMs ≤ t))).min?
  match minTs with
  | some m => m
  | none => windowAgoMs

/-- The rolling-window start as claim C3 words it, for comparison with
`getWindowStart`: the earliest event timestamp lying within
`[now - 5h, now]`; exactly `now - 5h` when no event falls in that
range.  (This follows the claim's words, not the source.) -/
def specWindowStartC3 (entries : List SessionEntryWithCwd) (nowMs : Int) : Int :=
  let windowAgoMs := nowMs - WINDOW_DURATION_MS
  let minTs := ((entries.map (fun e => e.tsMs)).filter
    (fun t => decide (windowAgoMs ≤ t ∧ t ≤ nowMs))).min?
  match minTs with
  | some m => m
  | none => windowAgoMs

/-- Model families (`ModelFamily` / `MODEL_FAMILY`). -/
inductive ModelFamily
  | opus
  | sonnet
  | haiku
  | unknown
deriving DecidableEq, Repr

/-- `MODEL_FAMILY.OPUS`. -/
def MODEL_FAMILY_OPUS : String := "opus"

/-- `MODEL_FAMILY.SONNET`. -/
def MODEL_FAMILY_SONNET : String := "sonnet"

/-- `MODEL_FAMILY.HAIKU`. -/
def MODEL_FAMILY_HAIKU : String := "haiku"

/-- `pat` is an initial segment of `s` (used to model `String.includes`). -/
def leadsWith : List Char → List Char → Bool
  | [], _ => true
  | _ :: _, [] => false
  | p :: ps, c :: cs => p == c && leadsWith ps cs

/-- `s.includes(pat)` on character lists: `pat` occurs contiguously in `s`. -/
def hasSub (pat : List Char) : List Char → Bool
  | [] => leadsWith pat []
  | c :: cs => leadsWith pat (c :: cs) || hasSub pat cs

/-- `getModelFamily` from `usage/utils.ts`: case-insensitive substring
match against "opus", then "sonnet", then "haiku"; otherwise `unknown`;
a missing model identifier is `unknown`.  (The module-level memo cache in
the source is a pure optimization and does not change the result.) -/
def getModelFamily (model : Option String) : ModelFamily :=
  match model with
  | none => .unknown
  | some m =>
    let lower := m.data.map Char.toLower
    if hasSub MODEL_FAMILY_OPUS.data lower then .opus
    else if hasSub MODEL_FAMILY_SONNET.data lower then .sonnet
    else if hasSub MODEL_FAMILY_HAIKU.data lower then .haiku
    else .unknown

/-- `ModelPricing`: dollars per million tokens. -/
structure ModelPricing where
  inputPerMTok : ℚ
  outputPerMTok : ℚ
deriving DecidableEq, Repr

/-- `MODEL_PRICING` table. -/
def MODEL_PRICING : ModelFamily → ModelPricing
  | .opus => { inputPerMTok := 15, outputPerMTok := 75 }
  | .sonnet => { inputPerMTok := 3, outputPerMTok := 15 }
  | .haiku => { inputPerMTok := 1, outputPerMTok := 5 }
  | .unknown => { inputPerMTok := 3, outputPerMTok := 15 }

/-- `calculateCost` from `usage/utils.ts`. -/
def calculateCost (inputTokens outputTokens : Nat) (inputPerMTok outputPerMTok : ℚ) : ℚ :=
  ((inputTokens : ℚ) / 1000000) * inputPerMTok + ((outputTokens : ℚ) / 1000000) * outputPerMTok

/-- Milliseconds per UTC day. -/
def MS_PER_DAY : Int := 24 * 60 * 60 * 1000

/-- Result of `getWeekBoundaries`. -/
structure WeekBoundaries where
  weekStart : Int
  weekEnd : Int
deriving DecidableEq, Repr

/-- `getWeekBoundaries` from `usage/utils.ts`.  The source takes a copy
of `now`, rewinds it by `getUTCDay()` days via `setUTCDate` (UTC days are
uniformly 86,400,000 ms) and zeroes the time of day via
`setUTCHours(0,0,0,0)`; the combined effect is flooring `now` to its UTC
day start and subtracting the UTC day-of-week in days.  The Unix epoch
fell on a Thursday (day 4), so `getUTCDay` is `(fdiv t day + 4) mod 7`.
`weekEnd` is `weekStart` plus seven days. -/
def getWeekBoundaries (nowMs : Int) : WeekBoundaries :=
  let dayOfWeek := (Int.fdiv nowMs MS_PER_DAY + 4) % 7
  let weekStart := MS_PER_DAY * Int.fdiv nowMs MS_PER_DAY - dayOfWeek * MS_PER_DAY
  { weekStart := weekStart, weekEnd := weekStart + 7 * MS_PER_DAY }

/-- `ProjectUsage`. -/
structure ProjectUsage where
  projectPath : String
  projectName : String
  totalTokens : Nat
  inputTokens : Nat
  outputTokens : Nat
  requests : Nat
  cost : ℚ
  percentage : ℚ
deriving DecidableEq, Repr

/-- `ProjectBreakdown`. -/
structure ProjectBreakdown where
  projects : List ProjectUsage
  totalTokens : Nat
  totalCost : ℚ
deriving DecidableEq, Repr

/-- `entry.cwd || 'Unknown'`: JavaScript `||` treats the empty string as
falsy, so both an absent and an empty `cwd` fall into the literal
`"Unknown"` bucket. -/
def entryProjectPath (entry : SessionEntryWithCwd) : String :=
  match entry.cwd with
  | some c => if c.isEmpty then "Unknown" else c
  | none => "Unknown"

/-- `path.basename` for POSIX paths: strip trailing separators, then
keep the characters after the last remaining separator. -/
def pathBasename (p : String) : String :=
  let trimmed := (p.data.reverse.dropWhile (fun c => c == '/')).reverse
  String.mk (trimmed.reverse.takeWhile (fun c => decide (c ≠ '/'))).reverse

/-- `projectPath === 'Unknown' ? 'Unknown' : path.basename(projectPath) || 'Unknown'`
(the `basenameCache` in the source is a pure memoization). -/
def projectNameOf (projectPath : String) : String :=
  if projectPath = "Unknown" then "Unknown"
  else if (pathBasename projectPath).isEmpty then "Unknown"
  else pathBasename projectPath

/-- One step of the `projectMap` accumulation in
`calculateProjectBreakdown`: update the existing `ProjectUsage` with the
same `projectPath` in place, or append a fresh one.  A JavaScript `Map`
iterates in insertion order, which the association list preserves. -/
def addEntryToProjects (projectPath projectName : String) (inTok outTok : Nat) (cost : ℚ) :
    List ProjectUsage → List ProjectUsage
  | [] =>
    [{ projectPath := projectPath, projectName := projectName,
       totalTokens := inTok + outTok, inputTokens := inTok, outputTokens := outTok,
       requests := 1, cost := cost, percentage := 0 }]
  | p :: rest =>
    if p.projectPath = projectPath then
      { p with totalTokens := p.totalTokens + (inTok + outTok),
               inputTokens := p.inputTokens + inTok,
               outputTokens := p.outputTokens + outTok,
               requests := p.requests + 1,
               cost := p.cost + cost } :: rest
    else p :: addEntryToProjects projectPath projectName inTok outTok cost rest

/-- Insert keeping a descending order on `totalTokens`; an element is
placed before the first element whose `totalTokens` is `≤` its own, so
among equal keys the earlier element of the original list stays first. -/
def insertProjDesc (p : ProjectUsage) : List ProjectUsage → List ProjectUsage
  | [] => [p]
  | q :: rest =>
    if q.totalTokens ≤ p.totalTokens then p :: q :: rest
    else q :: insertProjDesc p rest

/-- Stable descending sort on `totalTokens`, modelling
`projects.sort((a, b) => b.totalTokens - a.totalTokens)` (JavaScript
`Array.prototype.sort` is stable, and stable sorts agree on the result
for this comparator). -/
def sortProjectsDesc : List ProjectUsage → List ProjectUsage
  | [] => []
  | p :: rest => insertProjDesc p (sortProjectsDesc rest)

/-- One iteration of the `calculateProjectBreakdown` loop body for an
in-window entry: project path/name, tokens, family pricing and cost,
then the `projectMap` upsert. -/
def projectStep (acc : List ProjectUsage) (e : SessionEntryWithCwd) : List ProjectUsage :=
  let projectPath := entryProjectPath e
  let projectName := projectNameOf projectPath
  let inTok := entryInputTokens e
  let outTok := entryOutputTokens e
  let pricing := MODEL_PRICING (getModelFamily (e.message.bind (fun m => m.model)))
  let cost := calculateCost inTok outTok pricing.inputPerMTok pricing.outputPerMTok
  addEntryToProjects projectPath projectName inTok outTok cost acc

/-- `calculateProjectBreakdown` from `usage/tracker.ts`: group the
entries whose timestamp lies in `[weekStart, now]` by
`entry.cwd || 'Unknown'`, accumulating tokens, requests and cost per
group; compute each group's percentage of the grand total; sort
descending by token volume; return the top 10 together with the grand
totals. -/
def calculateProjectBreakdown (entries : List SessionEntryWithCwd)
    (weekStartMs nowMs : Int) : ProjectBreakdown :=
  let weekly := entries.filter (fun e => decide (weekStartMs ≤ e.tsMs ∧ e.tsMs ≤ nowMs))
  let projects := weekly.foldl projectStep []
  let totalTokens := (projects.map (fun p => p.totalTokens)).sum
  let totalCost := (projects.map (fun p => p.cost)).sum
  let withPct := projects.map
    (fun p =>
      { p with percentage :=
          if 0 < totalTokens then ((p.totalTokens : ℚ) / (totalTokens : ℚ)) * 100 else 0 })
  { projects := (sortProjectsDesc withPct).take 10,
    totalTokens := totalTokens, totalCost := totalCost }

/-- `UsageRate`. -/
structure UsageRate where
  tokensPerHour : ℚ
  sampleWindowMs : Int
  sampleTokens : Nat
deriving DecidableEq, Repr

/-- `DEFAULT_RATE_WINDOW_MS = 60 * 60 * 1000`. -/
def DEFAULT_RATE_WINDOW_MS : Int := 60 * 60 * 1000

/-- `calculateUsageRate` from `usage/tracker.ts`: over the entries whose
timestamp lies in `[now - sampleWindowMs, now]`, sum `getEntryTokens`
and track the oldest qualifying timestamp (initialized to `now`).  If
the token sum is zero, return a zero rate; otherwise the rate is
`sampleTokens / elapsedMs * 3600000` with `elapsedMs = now - oldest`,
guarded to `0` when `elapsedMs` is not positive.  (The source's TS
default argument for the sample window is `DEFAULT_RATE_WINDOW_MS`;
callers here always pass it explicitly.) -/
def calculateUsageRate (entries : List SessionEntryWithCwd) (nowMs : Int)
    (sampleWindowMs : Int) : UsageRate :=
  let windowStartMs := nowMs - sampleWindowMs
  let qualifying := entries.filter (fun e => decide (windowStartMs ≤ e.tsMs ∧ e.tsMs ≤ nowMs))
  let sampleTokens := (qualifying.map getEntryTokens).sum
  let oldestEntryTime := qualifying.foldl (fun acc e => if e.tsMs < acc then e.tsMs else acc) nowMs
  if sampleTokens = 0 then
    { tokensPerHour := 0, sampleWindowMs := sampleWindowMs, sampleTokens := 0 }
  else
    let elapsedMs := nowMs - oldestEntryTime
    let tokensPerHour : ℚ :=
      if 0 < elapsedMs then (sampleTokens : ℚ) / (elapsedMs : ℚ) * 3600000 else 0
    { tokensPerHour := tokensPerHour, sampleWindowMs := sampleWindowMs,
      sampleTokens := sampleTokens }

/-- The two reason codes of a failed prediction. -/
inductive PredictionReason
  | no_recent_usage
  | already_at_limit
deriving DecidableEq, Repr

/-- `LimitPrediction`.  Instants (`Date` values) are modelled as exact
rational millisecond values. -/
structure LimitPrediction where
  sessionLimitAt : Option ℚ
  weeklyLimitAt : Option ℚ
  timeToSessionLimit : Option ℚ
  timeToWeeklyLimit : Option ℚ
  canPredict : Bool
  reason : Option PredictionReason := none
deriving DecidableEq, Repr

/-- `calculatePredictions` from `usage/tracker.ts`: the rate check comes
first (`rate.tokensPerHour <= 0` → `no_recent_usage`), then the
at-limit check (either percentage `>= 100` → `already_at_limit`);
otherwise remaining tokens to each ceiling are `(100 - pct)/100 *
ceiling`, time-to-limit is remaining divided by the hourly rate and
scaled to milliseconds, and each projected instant is `now` plus that
duration. -/
def calculatePredictions (rate : UsageRate)
    (currentSessionPercent currentWeeklyPercent : ℚ) (plan : PlanType)
    (nowMs : Int) : LimitPrediction :=
  if rate.tokensPerHour ≤ 0 then
    { sessionLimitAt := none, weeklyLimitAt := none,
      timeToSessionLimit := none, timeToWeeklyLimit := none,
      canPredict := false, reason := some .no_recent_usage }
  else if 100 ≤ currentSessionPercent ∨ 100 ≤ currentWeeklyPercent then
    { sessionLimitAt := none, weeklyLimitAt := none,
      timeToSessionLimit := none, timeToWeeklyLimit := none,
      canPredict := false, reason := some .already_at_limit }
  else
    let limits := PLAN_LIMITS plan
    let weeklyTokenLimit := limits.weeklyHours * TOKENS_PER_HOUR_ESTIMATE
    let sessionRemainingTokens : ℚ := ((100 - currentSessionPercent) / 100) * (limits.windowTokens : ℚ)
    let weeklyRemainingTokens : ℚ := ((100 - currentWeeklyPercent) / 100) * (weeklyTokenLimit : ℚ)
    let timeToSessionLimit := sessionRemainingTokens / rate.tokensPerHour * 3600000
    let timeToWeeklyLimit := weeklyRemainingTokens / rate.tokensPerHour * 3600000
    { sessionLimitAt := some ((nowMs : ℚ) + timeToSessionLimit),
      weeklyLimitAt := some ((nowMs : ℚ) + timeToWeeklyLimit),
      timeToSessionLimit := some timeToSessionLimit,
      timeToWeeklyLimit := some timeToWeeklyLimit,
      canPredict := true, reason := none }

/-- `ModelUsage`. -/
structure ModelUsage where
  inputTokens : Nat
  outputTokens : Nat
  requests : Nat
  cost : ℚ
deriving DecidableEq, Repr

/-- `Record<ModelFamily, ModelUsage>`. -/
structure ModelBreakdown where
  opus : ModelUsage
  sonnet : ModelUsage
  haiku : ModelUsage
  unknown : ModelUsage
deriving DecidableEq, Repr

/-- The zero-initialized model breakdown. -/
def emptyModelBreakdown : ModelBreakdown :=
  let z : ModelUsage := { inputTokens := 0, outputTokens := 0, requests := 0, cost := 0 }
  { opus := z, sonnet := z, haiku := z, unknown := z }

/-- `modelBreakdown[family].inputTokens += ...` etc. for one entry. -/
def mbAdd (mb : ModelBreakdown) (family : ModelFamily) (inTok outTok : Nat) : ModelBreakdown :=
  let bump := fun (u : ModelUsage) =>
    { u with inputTokens := u.inputTokens + inTok,
             outputTokens := u.outputTokens + outTok,
             requests := u.requests + 1 }
  match family with
  | .opus => { mb with opus := bump mb.opus }
  | .sonnet => { mb with sonnet := bump mb.sonnet }
  | .haiku => { mb with haiku := bump mb.haiku }
  | .unknown => { mb with unknown := bump mb.unknown }

/-- The post-loop cost pass over the four families. -/
def mbWithCosts (mb : ModelBreakdown) : ModelBreakdown :=
  let withCost := fun (u : ModelUsage) (family : ModelFamily) =>
    let pricing := MODEL_PRICING family
    { u with cost := (calculateCost u.inputTokens u.outputTokens
        pricing.inputPerMTok pricing.outputPerMTok) }
  { opus := withCost mb.opus .opus, sonnet := withCost mb.sonnet .sonnet,
    haiku := withCost mb.haiku .haiku, unknown := withCost mb.unknown .unknown }

/-- `UsageSummary`.  The `projectBreakdown`, `usageRate` and
`prediction` fields are optional in the TS type but always populated by
`calculateUsage`, so they are plain fields here. -/
structure UsageSummary where
  windowTokens : Nat
  weeklyTokens : Nat
  windowPercentage : ℚ
  weeklyPercentage : ℚ
  estimatedHoursUsed : ℚ
  windowStartTime : Int
  windowEndTime : Int
  weekStartTime : Int
  weekEndTime : Int
  modelBreakdown : ModelBreakdown
  totalCost : ℚ
  projectBreakdown : ProjectBreakdown
  usageRate : UsageRate
  prediction : LimitPrediction
deriving DecidableEq, Repr

/-- The pure core of `UsageTracker.calculateUsage` (the spec's
`summarize(events, plan, now)`): the surrounding method only performs
the log-file I/O that materializes `entries`. -/
def calculateUsage (entries : List SessionEntryWithCwd) (plan : PlanType)
    (nowMs : Int) : UsageSummary :=
  let windowStartMs := getWindowStart entries nowMs
  let windowEndMs := windowStartMs + WINDOW_DURATION_MS
  let wk := getWeekBoundaries nowMs
  let weekStartMs := wk.weekStart
  let windowEntries := entries.filter (fun e => decide (windowStartMs ≤ e.tsMs ∧ e.tsMs ≤ nowMs))
  let weekEntries := entries.filter (fun e => decide (weekStartMs ≤ e.tsMs ∧ e.tsMs ≤ nowMs))
  let windowTokens := (windowEntries.map getEntryTokens).sum
  let weeklyTokens := (weekEntries.map getEntryTokens).sum
  let mb := weekEntries.foldl
    (fun acc e =>
      mbAdd acc (getModelFamily (e.message.bind (fun m => m.model)))
        (entryInputTokens e) (entryOutputTokens e))
    emptyModelBreakdown
  let mbC := mbWithCosts mb
  let totalCost := mbC.opus.cost + mbC.sonnet.cost + mbC.haiku.cost + mbC.unknown.cost
  let limits := PLAN_LIMITS plan
  let weeklyTokenLimit := limits.weeklyHours * TOKENS_PER_HOUR_ESTIMATE
  let windowPercentage : ℚ := min ((windowTokens : ℚ) / (limits.windowTokens : ℚ) * 100) 100
  let weeklyPercentage : ℚ := min ((weeklyTokens : ℚ) / (weeklyTokenLimit : ℚ) * 100) 100
  let projectBreakdown := calculateProjectBreakdown entries weekStartMs nowMs
  let usageRate := calculateUsageRate entries nowMs DEFAULT_RATE_WINDOW_MS
  let prediction := calculatePredictions usageRate windowPercentage weeklyPercentage plan nowMs
  { windowTokens := windowTokens, weeklyTokens := weeklyTokens,
    windowPercentage := windowPercentage, weeklyPercentage := weeklyPercentage,
    estimatedHoursUsed := (weeklyTokens : ℚ) / (TOKENS_PER_HOUR_ESTIMATE : ℚ),
    windowStartTime := windowStartMs, windowEndTime := windowEndMs,
    weekStartTime := wk.weekStart, weekEndTime := wk.weekEnd,
    modelBreakdown := mbC, totalCost := totalCost,
    projectBreakdown := projectBreakdown, usageRate := usageRate,
    prediction := prediction }

/-- One tracked limit of a remote usage snapshot:
`{ utilization, resetsAt }`. -/
structure LimitInfo where
  utilization : ℚ
  resetsAt : Option Int
deriving DecidableEq, Repr

/-- `UsageData` from `usage-api`: the remote snapshot consumed by the
limit state machine. -/
structure RemoteUsageData where
  session : LimitInfo
  weeklyAll : LimitInfo
  weeklySonnet : Option LimitInfo
deriving DecidableEq, Repr

/-- `LimitKind`. -/
inductive LimitKind
  | session
  | weeklyAll
  | weeklySonnet
deriving DecidableEq, Repr

/-- `LimitReset`. -/
structure LimitReset where
  kind : LimitKind
  resetAt : Int
deriving DecidableEq, Repr

/-- One `utilization >= 100 && resetsAt` check of `getLimitReset`
(a `Date` object is always truthy, so the `&& resetsAt` test is
exactly non-nullness). -/
def limitHit (info : LimitInfo) (kind : LimitKind) : Option LimitReset :=
  if 100 ≤ info.utilization then
    match info.resetsAt with
    | some r => some { kind := kind, resetAt := r }
    | none => none
  else none

/-- `getLimitReset` from `limit/limit.ts`: `null` data yields `null`;
otherwise the session, weekly-all and weekly-Sonnet checks run in that
order and the first hit wins; an absent `weeklySonnet` is skipped. -/
def getLimitReset (data : Option RemoteUsageData) : Option LimitReset :=
  match data with
  | none => none
  | some d =>
    match limitHit d.session .session with
    | some r => some r
    | none =>
      match limitHit d.weeklyAll .weeklyAll with
      | some r => some r
      | none =>
        match d.weeklySonnet with
        | some ws => limitHit ws .weeklySonnet
        | none => none

/-- `shouldRemainPaused` from `limit/limit.ts`:
`!!limit && limit.resetAt > now`. -/
def shouldRemainPaused (limit : Option LimitReset) (nowMs : Int) : Bool :=
  match limit with
  | some l => decide (nowMs < l.resetAt)
  | none => false

/-- Erase the optional cache counters of an entry, leaving every other
field untouched.  Two entries "differ only in cache token fields"
precisely when their `stripCache` images coincide. -/
def stripCache (e : SessionEntryWithCwd) : SessionEntryWithCwd :=
  { e with message := e.message.map (fun m =>
      { m with usage := m.usage.map (fun u =>
          { u with cache_creation_input_tokens := none,
                   cache_read_input_tokens := none }) }) }

/-! ### Helper lemmas -/

theorem limitHit_eq_some_of (info : LimitInfo) (kind : LimitKind) (r : Int)
    (hu : 100 ≤ info.utilization) (hr : info.resetsAt = some r) :
    limitHit info kind = some { kind := kind, resetAt := r } := by
  unfold limitHit
  rw [if_pos hu, hr]

theorem limitHit_eq_none_iff (info : LimitInfo) (kind : LimitKind) :
    limitHit info kind = none ↔ ¬ (100 ≤ info.utilization ∧ info.resetsAt ≠ none) := by
  unfold limitHit
  by_cases hu : 100 ≤ info.utilization
  · rw [if_pos hu]
    cases hr : info.resetsAt with
    | none => simp [hu, hr]
    | some r => simp [hu, hr]
  · rw [if_neg hu]
    simp [hu]

theorem limitHit_isSome_iff (info : LimitInfo) (kind : LimitKind) :
    (limitHit info kind).isSome = true ↔ (100 ≤ info.utilization ∧ info.resetsAt ≠ none) := by
  unfold limitHit
  by_cases hu : 100 ≤ info.utilization
  · rw [if_pos hu]
    cases hr : info.resetsAt with
    | none => simp [hu, hr]
    | some r => simp [hu, hr]
  · rw [if_neg hu]
    simp [hu]

theorem getLimitReset_some_eq (d : RemoteUsageData) :
    getLimitReset (some d) =
      (match limitHit d.session .session with
       | some r => some r
       | none =>
         match limitHit d.weeklyAll .weeklyAll with
         | some r => some r
         | none =>
           match d.weeklySonnet with
           | some ws => limitHit ws .weeklySonnet
           | none => none) := rfl

instance : Std.Antisymm (fun (a b : Int) => a ≤ b) :=
  ⟨fun h1 h2 => le_antisymm h1 h2⟩

theorem intMin?_eq_some_iff {xs : List Int} {a : Int} :
    xs.min? = some a ↔ a ∈ xs ∧ ∀ b, b ∈ xs → a ≤ b :=
  List.min?_eq_some_iff (fun x => le_refl x) (fun a b => min_choice a b)
    (fun _ _ _ => le_min_iff)

theorem oldestFold_spec (l : List SessionEntryWithCwd) :
    ∀ acc : Int,
      (l.foldl (fun acc e => if e.tsMs < acc then e.tsMs else acc) acc = acc
          ∨ ∃ e ∈ l, l.foldl (fun acc e => if e.tsMs < acc then e.tsMs else acc) acc = e.tsMs)
        ∧ l.foldl (fun acc e => if e.tsMs < acc then e.tsMs else acc) acc ≤ acc
        ∧ ∀ e ∈ l, l.foldl (fun acc e => if e.tsMs < acc then e.tsMs else acc) acc ≤ e.tsMs := by
  induction l with
  | nil =>
    intro acc
    exact ⟨Or.inl rfl, le_refl acc, by simp⟩
  | cons e rest ih =>
    intro acc
    simp only [List.foldl_cons]
    obtain ⟨hmem, hle, hminall⟩ := ih (if e.tsMs < acc then e.tsMs else acc)
    have hacc'le : (if e.tsMs < acc then e.tsMs else acc) ≤ acc := by split <;> omega
    have hacc'e : (if e.tsMs < acc then e.tsMs else acc) ≤ e.tsMs := by split <;> omega
    refine ⟨?_, le_trans hle hacc'le, ?_⟩
    · rcases hmem with h | ⟨e', he', h⟩
      · rw [h]
        split
        · exact Or.inr ⟨e, List.mem_cons_self e rest, rfl⟩
        · exact Or.inl rfl
      · exact Or.inr ⟨e', List.mem_cons_of_mem e he', h⟩
    · intro e' he'
      rcases List.mem_cons.mp he' with rfl | h
      · exact le_trans hle hacc'e
      · exact hminall e' h

theorem oldestFold_eq_least (entries : List SessionEntryWithCwd) (nowMs sw oldest : Int)
    (hex : ∃ e ∈ entries, e.tsMs = oldest ∧ nowMs - sw ≤ oldest ∧ oldest ≤ nowMs)
    (hmin : ∀ e ∈ entries, nowMs - sw ≤ e.tsMs → e.tsMs ≤ nowMs → oldest ≤ e.tsMs) :
    (entries.filter (fun e => decide (nowMs - sw ≤ e.tsMs ∧ e.tsMs ≤ nowMs))).foldl
      (fun acc e => if e.tsMs < acc then e.tsMs else acc) nowMs = oldest := by
  obtain ⟨e₀, he₀, hts₀, hlo₀, hhi₀⟩ := hex
  obtain ⟨hmem, hle, hminall⟩ :=
    oldestFold_spec
      (entries.filter (fun e => decide (nowMs - sw ≤ e.tsMs ∧ e.tsMs ≤ nowMs))) nowMs
  have he₀q : e₀ ∈ entries.filter (fun e => decide (nowMs - sw ≤ e.tsMs ∧ e.tsMs ≤ nowMs)) :=
    List.mem_filter.mpr ⟨he₀, by simp only [decide_eq_true_eq]; exact ⟨hts₀ ▸ hlo₀, hts₀ ▸ hhi₀⟩⟩
  have hub := hminall e₀ he₀q
  rw [hts₀] at hub
  have hlb : oldest ≤
      (entries.filter (fun e => decide (nowMs - sw ≤ e.tsMs ∧ e.tsMs ≤ nowMs))).foldl
        (fun acc e => if e.tsMs < acc then e.tsMs else acc) nowMs := by
    rcases hmem with h | ⟨e', he', h⟩
    · rw [h]; exact hhi₀
    · rw [h]
      have hmf := List.mem_filter.mp he'
      have hc := of_decide_eq_true hmf.2
      exact hmin e' hmf.1 hc.1 hc.2
  omega

theorem inout_eq_getEntryTokens (e : SessionEntryWithCwd) :
    entryInputTokens e + entryOutputTokens e = getEntryTokens e := by
  obtain ⟨ts, msg, cw⟩ := e
  cases msg with
  | none => rfl
  | some m =>
    obtain ⟨mo, us⟩ := m
    cases us with
    | none => rfl
    | some u => rfl

theorem addEntryToProjects_sum (pp pn : String) (i o : Nat) (c : ℚ) :
    ∀ l : List ProjectUsage,
      ((addEntryToProjects pp pn i o c l).map (fun p => p.totalTokens)).sum =
        (l.map (fun p => p.totalTokens)).sum + (i + o) := by
  intro l
  induction l with
  | nil => simp [addEntryToProjects]
  | cons p rest ih =>
    by_cases h : p.projectPath = pp
    · simp only [addEntryToProjects, if_pos h, List.map_cons, List.sum_cons]
      omega
    · simp only [addEntryToProjects, if_neg h, List.map_cons, List.sum_cons, ih]
      omega

theorem addEntryToProjects_keys (pp pn : String) (i o : Nat) (c : ℚ) :
    ∀ l : List ProjectUsage,
      (addEntryToProjects pp pn i o c l).map (fun p => p.projectPath) =
        (if pp ∈ l.map (fun p => p.projectPath) then l.map (fun p => p.projectPath)
         else l.map (fun p => p.projectPath) ++ [pp]) := by
  intro l
  induction l with
  | nil => simp [addEntryToProjects]
  | cons p rest ih =>
    by_cases h : p.projectPath = pp
    · simp only [addEntryToProjects, if_pos h, List.map_cons]
      rw [if_pos (List.mem_cons.mpr (Or.inl h.symm))]
    · simp only [addEntryToProjects, if_neg h, List.map_cons, ih]
      by_cases hm : pp ∈ rest.map (fun p => p.projectPath)
      · rw [if_pos hm, if_pos (List.mem_cons.mpr (Or.inr hm))]
      · rw [if_neg hm,
          if_neg (fun hc => (List.mem_cons.mp hc).elim (fun he => h he.symm) hm),
          List.cons_append]

theorem addEntryToProjects_nodup (pp pn : String) (i o : Nat) (c : ℚ)
    (l : List ProjectUsage) (h : (l.map (fun p => p.projectPath)).Nodup) :
    ((addEntryToProjects pp pn i o c l).map (fun p => p.projectPath)).Nodup := by
  rw [addEntryToProjects_keys]
  split_ifs with hm
  · exact h
  · rw [List.nodup_append]
    refine ⟨h, List.nodup_singleton pp, ?_⟩
    intro a ha hb
    rw [List.mem_singleton] at hb
    exact hm (hb ▸ ha)

theorem projectStep_sum (acc : List ProjectUsage) (e : SessionEntryWithCwd) :
    ((projectStep acc e).map (fun p => p.totalTokens)).sum =
      (acc.map (fun p => p.totalTokens)).sum + getEntryTokens e := by
  simp only [projectStep]
  rw [addEntryToProjects_sum, inout_eq_getEntryTokens]

theorem projectStep_nodup (acc : List ProjectUsage) (e : SessionEntryWithCwd)
    (h : (acc.map (fun p => p.projectPath)).Nodup) :
    ((projectStep acc e).map (fun p => p.projectPath)).Nodup := by
  simp only [projectStep]
  exact addEntryToProjects_nodup _ _ _ _ _ acc h

theorem projectFold_sum (l : List SessionEntryWithCwd) :
    ∀ acc : List ProjectUsage,
      ((l.foldl projectStep acc).map (fun p => p.totalTokens)).sum =
        (acc.map (fun p => p.totalTokens)).sum + (l.map getEntryTokens).sum := by
  induction l with
  | nil => intro acc; simp
  | cons e rest ih =>
    intro acc
    simp only [List.foldl_cons, List.map_cons, List.sum_cons, ih, projectStep_sum]
    omega

theorem projectFold_nodup (l : List SessionEntryWithCwd) :
    ∀ acc : List ProjectUsage, (acc.map (fun p => p.projectPath)).Nodup →
      ((l.foldl projectStep acc).map (fun p => p.projectPath)).Nodup := by
  induction l with
  | nil => intro acc h; simpa using h
  | cons e rest ih =>
    intro acc h
    simp only [List.foldl_cons]
    exact ih _ (projectStep_nodup acc e h)

theorem insertProjDesc_perm (p : ProjectUsage) :
    ∀ l : List ProjectUsage, (insertProjDesc p l).Perm (p :: l) := by
  intro l
  induction l with
  | nil => exact List.Perm.refl _
  | cons q rest ih =>
    unfold insertProjDesc
    split_ifs with h
    · exact List.Perm.refl _
    · exact (List.Perm.cons q ih).trans (List.Perm.swap p q rest)

theorem map_setPct_keys (l : List ProjectUsage) (f : ProjectUsage → ℚ) :
    ((l.map (fun p => { p with percentage := f p })).map (fun p => p.projectPath)) =
      l.map (fun p => p.projectPath) := by
  rw [List.map_map]
  rfl

theorem sortProjectsDesc_perm :
    ∀ l : List ProjectUsage, (sortProjectsDesc l).Perm l := by
  intro l
  induction l with
  | nil => exact List.Perm.refl _
  | cons p rest ih =>
    exact (insertProjDesc_perm p (sortProjectsDesc rest)).trans (List.Perm.cons p ih)

theorem getEntryTokens_stripCache (e : SessionEntryWithCwd) :
    getEntryTokens (stripCache e) = getEntryTokens e := by
  obtain ⟨ts, msg, cw⟩ := e
  cases msg with
  | none => rfl
  | some m =>
    obtain ⟨mo, us⟩ := m
    cases us with
    | none => rfl
    | some u => rfl

theorem entryInputTokens_stripCache (e : SessionEntryWithCwd) :
    entryInputTokens (stripCache e) = entryInputTokens e := by
  obtain ⟨ts, msg, cw⟩ := e
  cases msg with
  | none => rfl
  | some m =>
    obtain ⟨mo, us⟩ := m
    cases us with
    | none => rfl
    | some u => rfl

theorem entryOutputTokens_stripCache (e : SessionEntryWithCwd) :
    entryOutputTokens (stripCache e) = entryOutputTokens e := by
  obtain ⟨ts, msg, cw⟩ := e
  cases msg with
  | none => rfl
  | some m =>
    obtain ⟨mo, us⟩ := m
    cases us with
    | none => rfl
    | some u => rfl

theorem stripCache_model (e : SessionEntryWithCwd) :
    (stripCache e).message.bind (fun m => m.model) = e.message.bind (fun m => m.model) := by
  obtain ⟨ts, msg, cw⟩ := e
  cases msg with
  | none => rfl
  | some m => rfl

theorem entryProjectPath_stripCache (e : SessionEntryWithCwd) :
    entryProjectPath (stripCache e) = entryProjectPath e := rfl

theorem filterMap_stripCache {β : Type} (p : SessionEntryWithCwd → Bool)
    (g : SessionEntryWithCwd → β)
    (hp : ∀ e, p (stripCache e) = p e) (hg : ∀ e, g (stripCache e) = g e) :
    ∀ l : List SessionEntryWithCwd,
      ((l.map stripCache).filter p).map g = (l.filter p).map g := by
  intro l
  induction l with
  | nil => rfl
  | cons e rest ih =>
    simp only [List.map_cons]
    cases hpe : p e with
    | true =>
      rw [List.filter_cons_of_pos (by rw [hp e, hpe]), List.filter_cons_of_pos hpe,
        List.map_cons, List.map_cons, hg e, ih]
    | false =>
      rw [List.filter_cons_of_neg (by rw [hp e, hpe]; exact Bool.false_ne_true),
        List.filter_cons_of_neg (by rw [hpe]; exact Bool.false_ne_true), ih]

theorem filterFoldl_stripCache {β : Type} (p : SessionEntryWithCwd → Bool)
    (f : β → SessionEntryWithCwd → β)
    (hp : ∀ e, p (stripCache e) = p e) (hf : ∀ b e, f b (stripCache e) = f b e) :
    ∀ (l : List SessionEntryWithCwd) (b : β),
      ((l.map stripCache).filter p).foldl f b = (l.filter p).foldl f b := by
  intro l
  induction l with
  | nil => intro b; rfl
  | cons e rest ih =>
    intro b
    simp only [List.map_cons]
    cases hpe : p e with
    | true =>
      rw [List.filter_cons_of_pos (by rw [hp e, hpe]), List.filter_cons_of_pos hpe,
        List.foldl_cons, List.foldl_cons, hf b e]
      exact ih _
    | false =>
      rw [List.filter_cons_of_neg (by rw [hp e, hpe]; exact Bool.false_ne_true),
        List.filter_cons_of_neg (by rw [hpe]; exact Bool.false_ne_true)]
      exact ih b

theorem getWindowStart_stripCache (l : List SessionEntryWithCwd) (nowMs : Int) :
    getWindowStart (l.map stripCache) nowMs = getWindowStart l nowMs := by
  simp only [getWindowStart, List.map_map]
  rfl

theorem projectStep_stripCache (acc : List ProjectUsage) (e : SessionEntryWithCwd) :
    projectStep acc (stripCache e) = projectStep acc e := by
  simp only [projectStep]
  rw [entryProjectPath_stripCache, entryInputTokens_stripCache, entryOutputTokens_stripCache,
    stripCache_model]

theorem mbStep_stripCache (b : ModelBreakdown) (e : SessionEntryWithCwd) :
    mbAdd b (getModelFamily ((stripCache e).message.bind (fun m => m.model)))
        (entryInputTokens (stripCache e)) (entryOutputTokens (stripCache e)) =
      mbAdd b (getModelFamily (e.message.bind (fun m => m.model)))
        (entryInputTokens e) (entryOutputTokens e) := by
  rw [stripCache_model, entryInputTokens_stripCache, entryOutputTokens_stripCache]

theorem calculateProjectBreakdown_stripCache (l : List SessionEntryWithCwd)
    (weekStartMs nowMs : Int) :
    calculateProjectBreakdown (l.map stripCache) weekStartMs nowMs =
      calculateProjectBreakdown l weekStartMs nowMs := by
  simp only [calculateProjectBreakdown]
  rw [filterFoldl_stripCache
    (fun e => decide (weekStartMs ≤ e.tsMs ∧ e.tsMs ≤ nowMs)) projectStep
    (fun e => rfl) (fun b e => projectStep_stripCache b e)]

theorem calculateUsageRate_stripCache (l : List SessionEntryWithCwd) (nowMs sw : Int) :
    calculateUsageRate (l.map stripCache) nowMs sw = calculateUsageRate l nowMs sw := by
  simp only [calculateUsageRate]
  rw [filterMap_stripCache
      (fun e => decide (nowMs - sw ≤ e.tsMs ∧ e.tsMs ≤ nowMs)) getEntryTokens
      (fun e => rfl) getEntryTokens_stripCache,
    filterFoldl_stripCache
      (fun e => decide (nowMs - sw ≤ e.tsMs ∧ e.tsMs ≤ nowMs))
      (fun acc e => if e.tsMs < acc then e.tsMs else acc)
      (fun e => rfl) (fun b e => rfl)]

theorem calculateUsage_stripCache (l : List SessionEntryWithCwd) (plan : PlanType)
    (nowMs : Int) :
    calculateUsage (l.map stripCache) plan nowMs = calculateUsage l plan nowMs := by
  simp only [calculateUsage]
  rw [getWindowStart_stripCache]
  rw [filterMap_stripCache
    (fun e => decide (getWindowStart l nowMs ≤ e.tsMs ∧ e.tsMs ≤ nowMs)) getEntryTokens
    (fun e => rfl) getEntryTokens_stripCache]
  rw [filterMap_stripCache
    (fun e => decide ((getWeekBoundaries nowMs).weekStart ≤ e.tsMs ∧ e.tsMs ≤ nowMs))
    getEntryTokens (fun e => rfl) getEntryTokens_stripCache]
  rw [filterFoldl_stripCache
    (fun e => decide ((getWeekBoundaries nowMs).weekStart ≤ e.tsMs ∧ e.tsMs ≤ nowMs))
    (fun acc e =>
      mbAdd acc (getModelFamily (e.message.bind (fun m => m.model)))
        (entryInputTokens e) (entryOutputTokens e))
    (fun e => rfl) (fun b e => mbStep_stripCache b e)]
  rw [calculateProjectBreakdown_stripCache, calculateUsageRate_stripCache]

/-! ### Claim theorems -/

/-- C3, counterexample: a single entry time-stamped after `now` (and no
entry in `[now - 5h, now]`) makes `getWindowStart` return that future
timestamp, while the claim's reading ("earliest event timestamp within
`now − 5h` of `now`, else exactly `now − 5h`") demands `now − 5h`: the
source scan has no upper bound at `now`. -/
theorem getWindowStart_ne_specC3 :
    getWindowStart [{ tsMs := 40000000 }] 36000000 ≠
      specWindowStartC3 [{ tsMs := 40000000 }] 36000000 := by
  decide

/-- C3 (amended): the rolling-window start equals the earliest event
timestamp that is `≥ now − 5h` — with no upper clamp at `now`, so
future-dated events qualify too — and is exactly `now − 5h` when no
event timestamp is `≥ now − 5h`. -/
theorem getWindowStart_characterization (entries : List SessionEntryWithCwd) (nowMs : Int) :
    ((∀ e ∈ entries, e.tsMs < nowMs - WINDOW_DURATION_MS) →
        getWindowStart entries nowMs = nowMs - WINDOW_DURATION_MS)
    ∧ (∀ m : Int,
        (∃ e ∈ entries, e.tsMs = m) → nowMs - WINDOW_DURATION_MS ≤ m →
        (∀ e ∈ entries, nowMs - WINDOW_DURATION_MS ≤ e.tsMs → m ≤ e.tsMs) →
        getWindowStart entries nowMs = m) := by
  constructor
  · intro h
    have hfil : (entries.map (fun e => e.tsMs)).filter
        (fun t => decide (nowMs - WINDOW_DURATION_MS ≤ t)) = [] := by
      rw [List.filter_eq_nil_iff]
      intro t ht
      obtain ⟨e, he, rfl⟩ := List.mem_map.mp ht
      simpa using not_le.mpr (h e he)
    simp only [getWindowStart]
    rw [hfil]
    rfl
  · intro m ⟨e₀, he₀, hts₀⟩ hlo hminim
    have hsome : ((entries.map (fun e => e.tsMs)).filter
        (fun t => decide (nowMs - WINDOW_DURATION_MS ≤ t))).min? = some m := by
      rw [intMin?_eq_some_iff]
      constructor
      · exact List.mem_filter.mpr
          ⟨List.mem_map.mpr ⟨e₀, he₀, hts₀⟩, by simpa using hlo⟩
      · intro b hb
        have hmf := List.mem_filter.mp hb
        obtain ⟨e, he, rfl⟩ := List.mem_map.mp hmf.1
        exact hminim e he (by simpa using hmf.2)
    simp only [getWindowStart]
    rw [hsome]

/-- C3 witness: one entry inside the 5-hour window determines the
window start. -/
theorem getWindowStart_characterization_witness :
    getWindowStart [{ tsMs := 1000 }] 0 = 1000 :=
  (getWindowStart_characterization [{ tsMs := 1000 }] 0).2 1000
    ⟨{ tsMs := 1000 }, by decide, rfl⟩ (by decide) (by decide)

/-- C4, counterexample: with a single future-dated entry the computed
window start exceeds the reference time `t`, refuting "never later
than `t`". -/
theorem getWindowStart_can_exceed_now :
    ¬ (getWindowStart [{ tsMs := 50000000 }] 39600000 ≤ 39600000) := by
  decide

/-- C4 (amended): the window start is never earlier than `t − 5h`, and
— provided every event timestamp is at most `t` — never later than `t`.
(The unconditional upper bound fails: the source scan does not exclude
future-dated events, see the counterexample.) -/
theorem getWindowStart_bounds (entries : List SessionEntryWithCwd) (nowMs : Int) :
    nowMs - WINDOW_DURATION_MS ≤ getWindowStart entries nowMs
    ∧ ((∀ e ∈ entries, e.tsMs ≤ nowMs) → getWindowStart entries nowMs ≤ nowMs) := by
  simp only [getWindowStart]
  cases hmin : ((entries.map (fun e => e.tsMs)).filter
      (fun t => decide (nowMs - WINDOW_DURATION_MS ≤ t))).min? with
  | none =>
    constructor
    · show nowMs - WINDOW_DURATION_MS ≤ nowMs - WINDOW_DURATION_MS
      exact le_refl _
    · intro _
      show nowMs - WINDOW_DURATION_MS ≤ nowMs
      have : (0 : Int) ≤ WINDOW_DURATION_MS := by norm_num [WINDOW_DURATION_MS]
      omega
  | some m =>
    obtain ⟨hmem, -⟩ := intMin?_eq_some_iff.mp hmin
    have hmf := List.mem_filter.mp hmem
    constructor
    · show nowMs - WINDOW_DURATION_MS ≤ m
      simpa using hmf.2
    · intro h
      show m ≤ nowMs
      obtain ⟨e, he, hts⟩ := List.mem_map.mp hmf.1
      exact hts ▸ h e he

/-- C4 witness: a concrete past-only event set stays within `[t−5h, t]`. -/
theorem getWindowStart_bounds_witness :
    getWindowStart [{ tsMs := 5 }] 10 ≤ 10 :=
  (getWindowStart_bounds [{ tsMs := 5 }] 10).2 (by decide)

/-- C5: `estimateRate` returns the zero rate `{tokensPerHour := 0,
sampleTokens := 0}` when no event falls in `[now − sampleWindow, now]`;
otherwise `sampleTokens` is the token sum over the qualifying entries
and `tokensPerHour = sampleTokens / elapsedMs * 3600000` with
`elapsedMs = now − oldestQualifyingTimestamp` (the actual span covered
by the sample).  When `elapsedMs = 0` the division-by-zero convention
of `ℚ` (`x / 0 = 0`) coincides with the source's explicit
`elapsedMs > 0` guard returning `0`. -/
theorem calculateUsageRate_spec (entries : List SessionEntryWithCwd)
    (nowMs sampleWindowMs : Int) :
    ((∀ e ∈ entries, ¬ (nowMs - sampleWindowMs ≤ e.tsMs ∧ e.tsMs ≤ nowMs)) →
        calculateUsageRate entries nowMs sampleWindowMs =
          { tokensPerHour := 0, sampleWindowMs := sampleWindowMs, sampleTokens := 0 })
    ∧ (∀ oldest : Int,
        (∃ e ∈ entries, e.tsMs = oldest ∧ nowMs - sampleWindowMs ≤ oldest ∧ oldest ≤ nowMs) →
        (∀ e ∈ entries, nowMs - sampleWindowMs ≤ e.tsMs → e.tsMs ≤ nowMs → oldest ≤ e.tsMs) →
          (calculateUsageRate entries nowMs sampleWindowMs).sampleTokens =
              (((entries.filter (fun e => decide (nowMs - sampleWindowMs ≤ e.tsMs ∧ e.tsMs ≤ nowMs))).map
                  getEntryTokens).sum)
          ∧ (calculateUsageRate entries nowMs sampleWindowMs).tokensPerHour =
              ((((entries.filter (fun e => decide (nowMs - sampleWindowMs ≤ e.tsMs ∧ e.tsMs ≤ nowMs))).map
                  getEntryTokens).sum : ℚ) / ((nowMs - oldest : Int) : ℚ)) * 3600000) := by
  constructor
  · intro h
    have hfil : entries.filter
        (fun e => decide (nowMs - sampleWindowMs ≤ e.tsMs ∧ e.tsMs ≤ nowMs)) = [] := by
      rw [List.filter_eq_nil_iff]
      intro e he
      simpa using h e he
    simp only [calculateUsageRate]
    rw [hfil]
    rfl
  · intro oldest hex hmin
    have hnowge : oldest ≤ nowMs := by
      obtain ⟨e₀, -, -, -, hhi₀⟩ := hex
      exact hhi₀
    have hfold := oldestFold_eq_least entries nowMs sampleWindowMs oldest hex hmin
    constructor
    · simp only [calculateUsageRate]
      split_ifs with h h2
      · exact h.symm
      · rfl
      · rfl
    · simp only [calculateUsageRate, hfold]
      split_ifs with h h2
      · rw [h]
        simp
      · rfl
      · have hzero : nowMs - oldest = 0 := by omega
        rw [hzero]
        simp

/-- C5 witness: one qualifying entry (100 tokens, 1000 ms before
`now`) yields `100 / 1000 * 3600000` tokens per hour. -/
theorem calculateUsageRate_spec_witness :
    ((calculateUsageRate [{ tsMs := 0, message := some { model := none, usage := some { input_tokens := 100, output_tokens := 0 } } }] 1000 3600000).sampleTokens = 100)
    ∧ (calculateUsageRate [{ tsMs := 0, message := some { model := none, usage := some { input_tokens := 100, output_tokens := 0 } } }] 1000 3600000).tokensPerHour = 100 / 1000 * 3600000 := by
  have h := (calculateUsageRate_spec [{ tsMs := 0, message := some { model := none, usage := some { input_tokens := 100, output_tokens := 0 } } }] 1000 3600000).2 0 (by decide) (by decide)
  refine ⟨?_, ?_⟩
  · rw [h.1]
    decide
  · rw [h.2]
    norm_num [getEntryTokens]

/-- C1, counterexample: with `rate.tokensPerHour = 0` and
`sessionPercent = 100`, `calculatePredictions` reports
`no_recent_usage`, not `already_at_limit` — the rate check runs first,
so the claimed "regardless of the sign of rate.tokensPerHour" fails. -/
theorem calculatePredictions_not_always_already_at_limit :
    ¬ ((calculatePredictions
          { tokensPerHour := 0, sampleWindowMs := 3600000, sampleTokens := 0 }
          100 20 .pro 0).reason = some .already_at_limit) := by
  decide

/-- C1 (amended): whenever `rate.tokensPerHour > 0`, `predict` returns
`canPredict: false` with reason `already_at_limit` as soon as either the
session or the weekly percentage is `≥ 100`; when the rate is `≤ 0` the
rate check takes precedence and the reason is `no_recent_usage`
instead. -/
theorem calculatePredictions_already_at_limit_of_rate_pos
    (rate : UsageRate) (sp wp : ℚ) (plan : PlanType) (nowMs : Int)
    (hrate : 0 < rate.tokensPerHour) (hlim : 100 ≤ sp ∨ 100 ≤ wp) :
    calculatePredictions rate sp wp plan nowMs =
      { sessionLimitAt := none, weeklyLimitAt := none,
        timeToSessionLimit := none, timeToWeeklyLimit := none,
        canPredict := false, reason := some .already_at_limit } := by
  unfold calculatePredictions
  rw [if_neg (not_le.mpr hrate), if_pos hlim]

/-- C1 witness: a concrete positive-rate, at-limit input. -/
theorem calculatePredictions_already_at_limit_witness :
    calculatePredictions
        { tokensPerHour := 1, sampleWindowMs := 3600000, sampleTokens := 1 }
        100 20 .pro 0 =
      { sessionLimitAt := none, weeklyLimitAt := none,
        timeToSessionLimit := none, timeToWeeklyLimit := none,
        canPredict := false, reason := some .already_at_limit } :=
  calculatePredictions_already_at_limit_of_rate_pos _ 100 20 .pro 0
    (by norm_num) (Or.inl (by norm_num))

/-- C6: when the rate is positive and both percentages are below 100,
the prediction is `canPredict: true` with both durations present:
each equals `((100 - pct)/100 * ceiling) / rate.tokensPerHour` hours in
milliseconds, and each projected instant is `now` plus that duration
(the weekly ceiling being `weeklyHours * TOKENS_PER_HOUR_ESTIMATE`). -/
theorem calculatePredictions_formula
    (rate : UsageRate) (sp wp : ℚ) (plan : PlanType) (nowMs : Int)
    (hrate : 0 < rate.tokensPerHour) (hsp : sp < 100) (hwp : wp < 100) :
    calculatePredictions rate sp wp plan nowMs =
      { sessionLimitAt := some ((nowMs : ℚ) +
          ((100 - sp) / 100 * ((PLAN_LIMITS plan).windowTokens : ℚ)) / rate.tokensPerHour * 3600000),
        weeklyLimitAt := some ((nowMs : ℚ) +
          ((100 - wp) / 100 * (((PLAN_LIMITS plan).weeklyHours * TOKENS_PER_HOUR_ESTIMATE : Nat) : ℚ)) / rate.tokensPerHour * 3600000),
        timeToSessionLimit := some
          (((100 - sp) / 100 * ((PLAN_LIMITS plan).windowTokens : ℚ)) / rate.tokensPerHour * 3600000),
        timeToWeeklyLimit := some
          (((100 - wp) / 100 * (((PLAN_LIMITS plan).weeklyHours * TOKENS_PER_HOUR_ESTIMATE : Nat) : ℚ)) / rate.tokensPerHour * 3600000),
        canPredict := true, reason := none } := by
  unfold calculatePredictions
  rw [if_neg (not_le.mpr hrate), if_neg (by rw [not_or]; exact ⟨not_le.mpr hsp, not_le.mpr hwp⟩)]

/-- C6 witness, the spec scenario: rate 50,000 tokens/hour, session at
50%, weekly at 20%, base tier → `timeToSessionLimit` is exactly 5 hours
(18,000,000 ms). -/
theorem calculatePredictions_formula_witness :
    (calculatePredictions
        { tokensPerHour := 50000, sampleWindowMs := 3600000, sampleTokens := 50000 }
        50 20 .pro 0).timeToSessionLimit = some (5 * 3600000) := by
  rw [calculatePredictions_formula
    { tokensPerHour := 50000, sampleWindowMs := 3600000, sampleTokens := 50000 }
    50 20 .pro 0 (by norm_num) (by norm_num) (by norm_num)]
  norm_num [PLAN_LIMITS]

/-- C7, counterexample: a weekly event with no project identifier is
counted in the breakdown (under the `"Unknown"` bucket), so the
breakdown's token sum (here 100) differs from the weekly token total
restricted to events with a defined project identifier (here 0). -/
theorem calculateProjectBreakdown_counts_undefined_cwd :
    ¬ ((calculateProjectBreakdown [{ tsMs := 5, message := some { model := none, usage := some { input_tokens := 100, output_tokens := 0 } } }] 0 10).totalTokens =
        (([({ tsMs := 5, message := some { model := none, usage := some { input_tokens := 100, output_tokens := 0 } } } : SessionEntryWithCwd)].filter
            (fun e => decide (0 ≤ e.tsMs ∧ e.tsMs ≤ 10) && e.cwd.isSome)).map getEntryTokens).sum) := by
  decide

/-- C7 (amended): the project breakdown's token sum equals the weekly
token total over all events — events without a defined project
identifier are merged into the literal `"Unknown"` bucket rather than
dropped — and events with identical project identifiers are merged into
a single entry rather than duplicated (no project path repeats in the
returned list). -/
theorem calculateProjectBreakdown_total_and_merged
    (entries : List SessionEntryWithCwd) (weekStartMs nowMs : Int) :
    (calculateProjectBreakdown entries weekStartMs nowMs).totalTokens =
        ((entries.filter (fun e => decide (weekStartMs ≤ e.tsMs ∧ e.tsMs ≤ nowMs))).map
          getEntryTokens).sum
    ∧ ((calculateProjectBreakdown entries weekStartMs nowMs).projects.map
        (fun p => p.projectPath)).Nodup := by
  constructor
  · simp only [calculateProjectBreakdown]
    rw [projectFold_sum]
    simp
  · simp only [calculateProjectBreakdown]
    refine List.Nodup.sublist (List.Sublist.map _ (List.take_sublist 10 _)) ?_
    refine (List.Perm.nodup_iff (List.Perm.map _ (sortProjectsDesc_perm _))).mpr ?_
    rw [map_setPct_keys]
    exact projectFold_nodup _ [] (by simp)

/-- C8: for every event set and reference time, `windowPercentage` and
`weeklyPercentage` equal `min(100, tokens / ceiling * 100)` for their
buckets and lie in `[0, 100]`; with the base tier's 500,000-token
window ceiling, 50,000 window tokens give `windowPercentage = 10`. -/
theorem calculateUsage_percentages (entries : List SessionEntryWithCwd)
    (plan : PlanType) (nowMs : Int) :
    (0 ≤ (calculateUsage entries plan nowMs).windowPercentage
      ∧ (calculateUsage entries plan nowMs).windowPercentage ≤ 100)
    ∧ (0 ≤ (calculateUsage entries plan nowMs).weeklyPercentage
      ∧ (calculateUsage entries plan nowMs).weeklyPercentage ≤ 100)
    ∧ (calculateUsage entries plan nowMs).windowPercentage =
        min 100 (((calculateUsage entries plan nowMs).windowTokens : ℚ) /
          (((PLAN_LIMITS plan).windowTokens : Nat) : ℚ) * 100)
    ∧ (calculateUsage entries plan nowMs).weeklyPercentage =
        min 100 (((calculateUsage entries plan nowMs).weeklyTokens : ℚ) /
          ((((PLAN_LIMITS plan).weeklyHours * TOKENS_PER_HOUR_ESTIMATE : Nat)) : ℚ) * 100)
    ∧ ((PLAN_LIMITS plan).windowTokens = 500000 →
        (calculateUsage entries plan nowMs).windowTokens = 50000 →
        (calculateUsage entries plan nowMs).windowPercentage = 10) := by
  have hw : (calculateUsage entries plan nowMs).windowPercentage =
      min (((calculateUsage entries plan nowMs).windowTokens : ℚ) /
        (((PLAN_LIMITS plan).windowTokens : Nat) : ℚ) * 100) 100 := rfl
  have hww : (calculateUsage entries plan nowMs).weeklyPercentage =
      min (((calculateUsage entries plan nowMs).weeklyTokens : ℚ) /
        ((((PLAN_LIMITS plan).weeklyHours * TOKENS_PER_HOUR_ESTIMATE : Nat)) : ℚ) * 100) 100 := rfl
  have hwt : (0 : ℚ) ≤ ((calculateUsage entries plan nowMs).windowTokens : ℚ) :=
    Nat.cast_nonneg _
  have hwkt : (0 : ℚ) ≤ ((calculateUsage entries plan nowMs).weeklyTokens : ℚ) :=
    Nat.cast_nonneg _
  have hcw : (0 : ℚ) ≤ (((PLAN_LIMITS plan).windowTokens : Nat) : ℚ) := Nat.cast_nonneg _
  have hcwk : (0 : ℚ) ≤ ((((PLAN_LIMITS plan).weeklyHours * TOKENS_PER_HOUR_ESTIMATE : Nat)) : ℚ) :=
    Nat.cast_nonneg _
  refine ⟨⟨?_, ?_⟩, ⟨?_, ?_⟩, ?_, ?_, ?_⟩
  · rw [hw]
    exact le_min (mul_nonneg (div_nonneg hwt hcw) (by norm_num)) (by norm_num)
  · rw [hw]
    exact min_le_right _ _
  · rw [hww]
    exact le_min (mul_nonneg (div_nonneg hwkt hcwk) (by norm_num)) (by norm_num)
  · rw [hww]
    exact min_le_right _ _
  · rw [hw, min_comm]
  · rw [hww, min_comm]
  · intro hplan htok
    rw [hw, htok, hplan]
    rw [show ((50000 : Nat) : ℚ) / ((500000 : Nat) : ℚ) * 100 = 10 by norm_num]
    norm_num

/-- C8 witness: the spec scenario — two events inside the rolling
window totaling 50,000 tokens on the base tier give 10 percent. -/
theorem calculateUsage_percentages_witness :
    (calculateUsage [{ tsMs := 0, message := some { model := none, usage := some { input_tokens := 25000, output_tokens := 0 } } }, { tsMs := 0, message := some { model := none, usage := some { input_tokens := 0, output_tokens := 25000 } } }] .pro 0).windowPercentage = 10 :=
  (calculateUsage_percentages [{ tsMs := 0, message := some { model := none, usage := some { input_tokens := 25000, output_tokens := 0 } } }, { tsMs := 0, message := some { model := none, usage := some { input_tokens := 0, output_tokens := 25000 } } }] .pro 0).2.2.2.2
    rfl (by decide)

/-- C2: for every remote snapshot, `getLimitReset` is non-null iff some
tracked limit has utilization ≥ 100 together with a non-null reset
instant (so with only null `resetsAt` among breached limits the machine
stays in Normal); the checks run session first, then weekly-all, then
weekly-Sonnet, and the first match determines the single `LimitReset`
returned. -/
theorem getLimitReset_pause_iff (d : RemoteUsageData) :
    ((getLimitReset (some d)).isSome = true ↔
        ((100 ≤ d.session.utilization ∧ d.session.resetsAt ≠ none)
          ∨ (100 ≤ d.weeklyAll.utilization ∧ d.weeklyAll.resetsAt ≠ none)
          ∨ (∃ ws, d.weeklySonnet = some ws ∧ 100 ≤ ws.utilization ∧ ws.resetsAt ≠ none)))
    ∧ (∀ r : Int, 100 ≤ d.session.utilization → d.session.resetsAt = some r →
        getLimitReset (some d) = some { kind := .session, resetAt := r })
    ∧ (∀ r : Int, ¬ (100 ≤ d.session.utilization ∧ d.session.resetsAt ≠ none) →
        100 ≤ d.weeklyAll.utilization → d.weeklyAll.resetsAt = some r →
        getLimitReset (some d) = some { kind := .weeklyAll, resetAt := r })
    ∧ (∀ (ws : LimitInfo) (r : Int),
        ¬ (100 ≤ d.session.utilization ∧ d.session.resetsAt ≠ none) →
        ¬ (100 ≤ d.weeklyAll.utilization ∧ d.weeklyAll.resetsAt ≠ none) →
        d.weeklySonnet = some ws → 100 ≤ ws.utilization → ws.resetsAt = some r →
        getLimitReset (some d) = some { kind := .weeklySonnet, resetAt := r }) := by
  refine ⟨?_, ?_, ?_, ?_⟩
  · rw [getLimitReset_some_eq]
    cases hs : limitHit d.session .session with
    | some r =>
      simp only [Option.isSome_some, true_iff]
      exact Or.inl ((limitHit_isSome_iff d.session .session).mp (by rw [hs]; rfl))
    | none =>
      have hsn := (limitHit_eq_none_iff d.session .session).mp hs
      cases hw : limitHit d.weeklyAll .weeklyAll with
      | some r =>
        simp only [Option.isSome_some, true_iff]
        exact Or.inr (Or.inl ((limitHit_isSome_iff d.weeklyAll .weeklyAll).mp (by rw [hw]; rfl)))
      | none =>
        have hwn := (limitHit_eq_none_iff d.weeklyAll .weeklyAll).mp hw
        cases hws : d.weeklySonnet with
        | none =>
          simp only [Option.isSome_none, Bool.false_eq_true, false_iff]
          rintro (h | h | ⟨ws, hws', _⟩)
          · exact hsn h
          · exact hwn h
          · exact Option.noConfusion hws'
        | some ws =>
          rw [limitHit_isSome_iff ws .weeklySonnet]
          constructor
          · intro h
            exact Or.inr (Or.inr ⟨ws, rfl, h⟩)
          · rintro (h | h | ⟨ws', hws', h⟩)
            · exact absurd h hsn
            · exact absurd h hwn
            · cases Option.some_inj.mp hws'
              exact h
  · intro r hu hr
    rw [getLimitReset_some_eq, limitHit_eq_some_of d.session .session r hu hr]
  · intro r hns hu hr
    rw [getLimitReset_some_eq, (limitHit_eq_none_iff d.session .session).mpr hns,
      limitHit_eq_some_of d.weeklyAll .weeklyAll r hu hr]
  · intro ws r hns hnw hws hu hr
    rw [getLimitReset_some_eq, (limitHit_eq_none_iff d.session .session).mpr hns,
      (limitHit_eq_none_iff d.weeklyAll .weeklyAll).mpr hnw, hws]
    exact limitHit_eq_some_of ws .weeklySonnet r hu hr

/-- C2 witness: a concrete snapshot with the session limit breached and
a known reset instant pauses with that instant. -/
theorem getLimitReset_pause_iff_witness :
    getLimitReset (some
        { session := { utilization := 100, resetsAt := some 5 },
          weeklyAll := { utilization := 0, resetsAt := none },
          weeklySonnet := none }) =
      some { kind := .session, resetAt := 5 } :=
  (getLimitReset_pause_iff
    { session := { utilization := 100, resetsAt := some 5 },
      weeklyAll := { utilization := 0, resetsAt := none },
      weeklySonnet := none }).2.1 5 (by norm_num) rfl

/-- C10: the optional cache-creation/cache-read token counts never
contribute to any aggregate — two event sets that agree after erasing
the cache fields (`stripCache`) produce identical usage summaries
(window/weekly token totals, percentages, model breakdown, costs,
project breakdown, rate and prediction) and identical rate estimates
for any sample window. -/
theorem cacheTokens_ignored (l₁ l₂ : List SessionEntryWithCwd)
    (h : l₁.map stripCache = l₂.map stripCache) (plan : PlanType) (nowMs sw : Int) :
    calculateUsage l₁ plan nowMs = calculateUsage l₂ plan nowMs
    ∧ calculateUsageRate l₁ nowMs sw = calculateUsageRate l₂ nowMs sw := by
  constructor
  · rw [← calculateUsage_stripCache l₁, h, calculateUsage_stripCache]
  · rw [← calculateUsageRate_stripCache l₁, h, calculateUsageRate_stripCache]

/-- C10 witness: a concrete pair of singleton event sets differing only
in cache fields yields the same summary. -/
theorem cacheTokens_ignored_witness :
    calculateUsage [{ tsMs := 0, message := some { model := some ("claude-sonnet"), usage := some { input_tokens := 10, output_tokens := 20, cache_creation_input_tokens := some 999, cache_read_input_tokens := some 888 } }, cwd := some ("/tmp/proj") }] .pro 0 =
      calculateUsage [{ tsMs := 0, message := some { model := some ("claude-sonnet"), usage := some { input_tokens := 10, output_tokens := 20 } }, cwd := some ("/tmp/proj") }] .pro 0 :=
  (cacheTokens_ignored _ _ (by decide) .pro 0 3600000).1

/-- C9: the machine remains Paused exactly when a `LimitReset` is held
and `now` is strictly before its reset instant; in particular a reset
instant of `t + 60` seconds evaluated at `t + 61` seconds is no longer
paused. -/
theorem shouldRemainPaused_iff :
    (∀ (limit : Option LimitReset) (nowMs : Int),
        shouldRemainPaused limit nowMs = true ↔
          ∃ l, limit = some l ∧ nowMs < l.resetAt)
    ∧ (∀ t : Int,
        shouldRemainPaused (some { kind := .session, resetAt := t + 60000 }) (t + 61000)
          = false) := by
  constructor
  · intro limit nowMs
    cases limit with
    | none => simp [shouldRemainPaused]
    | some l => simp [shouldRemainPaused]
  · intro t
    simp only [shouldRemainPaused, decide_eq_false_iff_not, not_lt]
    omega

/-- C9 witness: the spec scenario at `t = 0`. -/
theorem shouldRemainPaused_iff_witness :
    shouldRemainPaused (some { kind := .session, resetAt := (0 : Int) + 60000 })
      ((0 : Int) + 61000) = false :=
  shouldRemainPaused_iff.2 0

end Clauder
